import Mathlib

/-!
Shallow embedding of `app.py` (prompt-generator-plus): the resource
ingestion store (`sync_resources_from_disk`, `upload_resource`,
`get_resources`, `clear_resources`), the format extractors
(`extract_text_from_pdf`, `extract_text_from_epub`, `load_file_content`),
the language detector (`is_persian`) and the generation pipeline of
`generate_prompt` (translation phase, context assembly, tool fallback).

External effects are passed in explicitly: the result of `os.listdir` is an
`Except` value, the per-file behavior of the pypdf / ebooklib / open calls
is carried on each `DiskFile` as `Except` fields (the library call either
raises, modelled `Except.error`, or returns its parsed value), and the
remote model gateway is a function from (instruction, tools-enabled) to an
`Except` outcome. Python `str` is modelled as `String` (a sequence of code
points, as in Python); slicing `s[:n]` is `List.take` on the code points.
-/

namespace PromptGen

/-- MAX_FILES = 4 (app.py line 22). -/
def MAX_FILES : Nat := 4

/-- ALLOWED_EXTENSIONS (app.py line 21), as a list. -/
def ALLOWED_EXTENSIONS : List String := ["txt", "pdf", "epub"]

/-- The characters after the last dot: `filename.rsplit(".", 1)[1]` when a
dot is present. -/
def afterLastDot (cs : List Char) : List Char :=
  (cs.reverse.takeWhile (fun c => c ≠ '.')).reverse

/-- Embedding of `filename.rsplit(".", 1)[1]` : `some` extension when the name holds a
dot, `none` when the index would raise `IndexError`. -/
def extOf (filename : String) : Option String :=
  if filename.data.contains '.' then some (String.mk (afterLastDot filename.data))
  else none

/-- Python `str.lower()` (restricted to the ASCII case mapping, which is all
that the comparisons against the allowed extensions exercise). -/
def strLower (s : String) : String := String.mk (s.data.map Char.toLower)

/-- Embedding of `allowed_file` (app.py lines 30-31). -/
def allowed_file (filename : String) : Bool :=
  match extOf filename with
  | some ext => ALLOWED_EXTENSIONS.contains (strLower ext)
  | none => false

/-- One file of the backing directory. The per-strategy fields give the
outcome of handing the file's bytes to each external reader:
`asPdf` is `PdfReader(...)` (pages, each page's `extract_text()` result,
`none` standing for Python `None`); `asEpub` is `epub.read_epub(...)`
(items as (is-document, text-of-content) pairs); `asTxt` is
`open(...).read()` with permissive decoding. `byteLen` is the physical
size of the file in bytes. -/
structure DiskFile where
  name : String
  asPdf : Except String (List (Option String))
  asEpub : Except String (List (Bool × String))
  asTxt : Except String String
  byteLen : Nat

/-- Embedding of `extract_text_from_pdf` (app.py lines 35-46): concatenate each page's
non-empty extracted text followed by a newline; any raise yields "". -/
def extract_text_from_pdf (f : DiskFile) : String :=
  match f.asPdf with
  | Except.error _ => ""
  | Except.ok pages =>
    pages.foldl
      (fun text ext =>
        match ext with
        | some e => if e = "" then text else text ++ e ++ "\n"
        | none => text)
      ""

/-- Embedding of `extract_text_from_epub` (app.py lines 48-59): join the document items'
texts with newlines; any raise yields "". -/
def extract_text_from_epub (f : DiskFile) : String :=
  match f.asEpub with
  | Except.error _ => ""
  | Except.ok items => String.intercalate "\n" ((items.filter (fun it => it.1)).map (fun it => it.2))

/-- Embedding of `load_file_content` (app.py lines 61-73). Line 62 computes
`filename.rsplit(".", 1)[1]` outside the try block, so a dotless name
raises `IndexError` past the function (modelled `Except.error`); with an
extension present the function is total: pdf and epub dispatch to the
extractors above (which never raise), and any other extension reads the
file as text, any raise caught and turned into "". -/
def load_file_content (f : DiskFile) : Except String String :=
  match extOf f.name with
  | none => Except.error "IndexError: list index out of range"
  | some e =>
    let ext := strLower e
    if ext = "pdf" then Except.ok (extract_text_from_pdf f)
    else if ext = "epub" then Except.ok (extract_text_from_epub f)
    else
      Except.ok (match f.asTxt with
        | Except.ok s => s
        | Except.error _ => "")

/-- The in-memory `knowledge_base` dict: an ordered association list, as a
Python dict preserves insertion order. -/
abbrev KB := List (String × String)

/-- Python dict assignment `kb[k] = v`: overwrite in place when the key is
present, append otherwise. -/
def dictInsert (kb : KB) (k v : String) : KB :=
  if kb.any (fun p => p.1 == k) then
    kb.map (fun p => if p.1 = k then (k, v) else p)
  else kb ++ [(k, v)]

/-- The loop of `sync_resources_from_disk` (app.py lines 83-91), run over
the listing with the accumulated dict and counter. A raise from
`load_file_content` would propagate (modelled `Except.error`); it is
proved unreachable below (`buildKBAux_ok`) because the loop guards each
call with `allowed_file`. -/
def buildKBAux : List DiskFile → KB → Nat → Except String KB
  | [], kb, _ => Except.ok kb
  | f :: fs, kb, count =>
    if allowed_file f.name ∧ count < MAX_FILES then
      match load_file_content f with
      | Except.error e => Except.error e
      | Except.ok content =>
        if content = "" then buildKBAux fs kb count
        else buildKBAux fs (dictInsert kb f.name content) (count + 1)
    else buildKBAux fs kb count

/-- The mapping `sync_resources_from_disk` rebuilds from a directory
listing, starting from the cleared dict. The error branch is unreachable
(`buildKBAux_ok`). -/
def buildKB (files : List DiskFile) : KB :=
  match buildKBAux files [] 0 with
  | Except.ok kb => kb
  | Except.error _ => []

/-- Embedding of `sync_resources_from_disk` (app.py lines 75-91) acting on the store.
`listing` is the outcome of `os.listdir(UPLOAD_FOLDER)` (line 78), which is
not wrapped in any try: a raise there propagates to the caller and the
store — cleared only at line 81, after the listing — keeps its prior
value. On a successful listing the dict is cleared and repopulated by the
loop. The inner error branch is unreachable (`buildKBAux_ok`); the value
given there is never observed. -/
def syncRun (listing : Except String (List DiskFile)) (kb : KB) :
    Except String Unit × KB :=
  match listing with
  | Except.error e => (Except.error e, kb)
  | Except.ok files =>
    match buildKBAux files [] 0 with
    | Except.ok kb2 => (Except.ok (), kb2)
    | Except.error e => (Except.error e, [])

/-- Embedding of `file.save(save_path)` (app.py line 151) at the directory level:
overwrite the existing file of the same name in place, or create a new one
(appearing at the end of the modelled listing order). -/
def saveFile (disk : List DiskFile) (f : DiskFile) : List DiskFile :=
  if disk.any (fun g => g.name == f.name) then
    disk.map (fun g => if g.name = f.name then f else g)
  else disk ++ [f]

/-- Outcomes of the `upload_resource` route (app.py lines 134-162). -/
inductive UploadResp where
  | noSelectedFile : UploadResp
  | capacityError : UploadResp
  | invalidType : UploadResp
  | success : String → Nat → UploadResp
deriving DecidableEq

/-- Embedding of `upload_resource` (app.py lines 134-162), given a successful listing of
the current directory: reject an empty filename (400), resync, reject at
capacity (403), then for an allowed extension save the file and resync
again; otherwise reject the type (400). Returns the response, the
directory after the operation, and the store after the operation. -/
def upload_resource (disk : List DiskFile) (file : DiskFile) (kb : KB) :
    UploadResp × List DiskFile × KB :=
  if file.name = "" then (UploadResp.noSelectedFile, disk, kb)
  else
    let kb1 := buildKB disk
    if MAX_FILES ≤ kb1.length then (UploadResp.capacityError, disk, kb1)
    else if allowed_file file.name then
      let disk2 := saveFile disk file
      let kb2 := buildKB disk2
      (UploadResp.success file.name kb2.length, disk2, kb2)
    else (UploadResp.invalidType, disk, kb1)

/-- Embedding of `get_resources` (app.py lines 125-132), given a successful listing for
the lazy resync: when the store is empty, resync first; then report
(name, len(content)) pairs. Returns the reported list and the store after
the operation. -/
def get_resources (disk : List DiskFile) (kb : KB) :
    List (String × Nat) × KB :=
  let kb2 := if kb.isEmpty then buildKB disk else kb
  (kb2.map (fun p => (p.1, p.2.length)), kb2)

/-- Embedding of `clear_resources` (app.py lines 164-176): delete every file best
effort — `deleteFails` marks the files whose `os.unlink` raises (caught and
logged, the file remains) — then clear the store unconditionally. -/
def clear_resources (disk : List DiskFile) (deleteFails : String → Bool) :
    List DiskFile × KB :=
  (disk.filter (fun f => deleteFails f.name), [])

/-- Embedding of `is_persian` (app.py lines 96-98): `re.search` for one character in
U+0600 to U+06FF. -/
def is_persian (text : String) : Bool :=
  text.data.any (fun c => decide (0x600 ≤ c.toNat ∧ c.toNat ≤ 0x6FF))

/-- The per-resource slice bound of Phase 2: `content[:40000]`
(app.py line 208). -/
def PER_RESOURCE_LIMIT : Nat := 40000

/-- Python slicing `s[:n]` on code points. -/
def strTake (s : String) (n : Nat) : String := String.mk (s.data.take n)

/-- One block of the Phase 2 context:
`f"\n--- RESOURCE: (fname) ---\n(content sliced to 40000)...\n"`
(app.py line 208). -/
def resourceBlock (fname content : String) : String :=
  "\n--- RESOURCE: " ++ fname ++ " ---\n" ++ strTake content PER_RESOURCE_LIMIT ++ "...\n"

/-- Phase 2 context assembly (app.py lines 206-208): concatenate one block
per stored resource, in store iteration order. -/
def buildContext (kb : KB) : String :=
  kb.foldl (fun acc p => acc ++ resourceBlock p.1 p.2) ""

/-- The Phase 1 translation instruction (app.py line 200). -/
def TRANSLATION_INSTRUCTION : String :=
  "Translate the following Persian text into SIMPLIFIED, CLARIFIED English. Return only the translation."

/-- The Phase 3 instruction block (app.py lines 211-222), with the
assembled context and the working request interpolated. -/
def systemInstruction (ctx processed : String) : String :=
  "\n        You are an Elite Prompt Engineer.\n        \n        INTERNAL KNOWLEDGE BASE:\n        "
    ++ ctx
    ++ "\n        \n        TASK:\n        Refine this request: \"" ++ processed
    ++ "\"\n        \n        Create a highly optimized prompt.\n        OUTPUT: Markdown format only.\n        "

/-- One remote generation call as issued by the pipeline: its instruction
text and whether the google_search tool was enabled. -/
structure GwCall where
  instruction : String
  tools : Bool
deriving DecidableEq

/-- Phase 3 (app.py lines 224-232): call the model with tools enabled; on
any raise, retry exactly once with the same instruction and no tools. The
gateway `gw` maps (instruction, tools-enabled) to the call's outcome.
Returns the outcome reaching line 234 together with the list of calls
issued. -/
def phase3 (gw : String → Bool → Except String String) (instr : String) :
    Except String String × List GwCall :=
  match gw instr true with
  | Except.ok t => (Except.ok t, [⟨instr, true⟩])
  | Except.error _ =>
    match gw instr false with
    | Except.ok t => (Except.ok t, [⟨instr, true⟩, ⟨instr, false⟩])
    | Except.error e => (Except.error e, [⟨instr, true⟩, ⟨instr, false⟩])

/-- A successful pipeline outcome: the generated text and the metadata
notes (app.py lines 236-245). -/
structure GenOk where
  result : String
  meta : List String
deriving DecidableEq

/-- The body of `generate_prompt` (app.py lines 189-249) after the input
validation, over a store snapshot `kb`. Phase 1 translates when the
request holds Persian characters (that call has no tools and its raise is
fatal: the outer except returns a 500, modelled `Except.error`). Phase 2
assembles the context. Phase 3 generates with the one-shot tool fallback;
a second raise reaches the outer except as well. On success the metadata
notes are appended conditionally. -/
def generate_prompt (gw : String → Bool → Except String String) (kb : KB)
    (user_prompt : String) : Except String GenOk :=
  let p1 : Except String (String × Bool) :=
    if is_persian user_prompt then
      match gw (TRANSLATION_INSTRUCTION ++ "\n\n" ++ user_prompt) false with
      | Except.ok t => Except.ok (t, true)
      | Except.error e => Except.error e
    else Except.ok (user_prompt, false)
  match p1 with
  | Except.error e => Except.error e
  | Except.ok (processed, wasTranslated) =>
    let ctx := buildContext kb
    let instr := systemInstruction ctx processed
    match (phase3 gw instr).1 with
    | Except.error e => Except.error e
    | Except.ok final =>
      let meta :=
        (if wasTranslated then ["Translated input: \x27" ++ user_prompt ++ "\x27"] else [])
          ++ (if ctx = "" then [] else ["Utilized " ++ toString kb.length ++ " internal resources."])
      Except.ok ⟨final, meta⟩

/-! ## Helper lemmas about the store -/

theorem extOf_of_allowed {n : String} (h : allowed_file n = true) :
    ∃ e, extOf n = some e := by
  unfold allowed_file at h
  cases hx : extOf n with
  | none => simp [hx] at h
  | some e => exact ⟨e, rfl⟩

theorem load_ok_of_allowed (f : DiskFile) (h : allowed_file f.name = true) :
    ∃ s, load_file_content f = Except.ok s := by
  obtain ⟨e, he⟩ := extOf_of_allowed h
  unfold load_file_content
  rw [he]
  by_cases h1 : strLower e = "pdf"
  · simp [h1]
  · by_cases h2 : strLower e = "epub"
    · simp [h1, h2]
    · simp [h1, h2]

theorem buildKBAux_ok (files : List DiskFile) (kb : KB) (count : Nat) :
    ∃ kb2, buildKBAux files kb count = Except.ok kb2 := by
  induction files generalizing kb count with
  | nil => exact ⟨kb, rfl⟩
  | cons f fs ih =>
    unfold buildKBAux
    by_cases hg : allowed_file f.name = true ∧ count < MAX_FILES
    · rw [if_pos hg]
      obtain ⟨s, hs⟩ := load_ok_of_allowed f hg.1
      rw [hs]
      dsimp only
      by_cases hc : s = ""
      · rw [if_pos hc]; exact ih kb count
      · rw [if_neg hc]; exact ih _ _
    · rw [if_neg hg]; exact ih kb count

theorem buildKB_eq (files : List DiskFile) :
    buildKBAux files [] 0 = Except.ok (buildKB files) := by
  obtain ⟨kb2, h⟩ := buildKBAux_ok files [] 0
  unfold buildKB
  rw [h]

theorem dictInsert_length_le (kb : KB) (k v : String) :
    (dictInsert kb k v).length ≤ kb.length + 1 := by
  unfold dictInsert
  split
  · simp
  · simp

theorem buildKBAux_length (files : List DiskFile) (kb : KB) (count : Nat) (kb2 : KB)
    (h : buildKBAux files kb count = Except.ok kb2) :
    kb2.length ≤ kb.length + (MAX_FILES - count) := by
  induction files generalizing kb count with
  | nil =>
    unfold buildKBAux at h
    cases h
    omega
  | cons f fs ih =>
    unfold buildKBAux at h
    by_cases hg : allowed_file f.name = true ∧ count < MAX_FILES
    · rw [if_pos hg] at h
      cases hl : load_file_content f with
      | error e => rw [hl] at h; cases h
      | ok s =>
        rw [hl] at h
        dsimp only at h
        by_cases hc : s = ""
        · rw [if_pos hc] at h
          exact ih _ _ h
        · rw [if_neg hc] at h
          have h1 := ih _ _ h
          have h2 := dictInsert_length_le kb f.name s
          have h3 := hg.2
          omega
    · rw [if_neg hg] at h
      exact ih _ _ h

theorem buildKB_length (files : List DiskFile) : (buildKB files).length ≤ MAX_FILES := by
  have h := buildKBAux_length files [] 0 _ (buildKB_eq files)
  simpa using h

theorem dictInsert_mem {kb : KB} {k v : String} {p : String × String}
    (h : p ∈ dictInsert kb k v) : p ∈ kb ∨ p = (k, v) := by
  unfold dictInsert at h
  split at h
  · obtain ⟨q, hq, he⟩ := List.mem_map.mp h
    by_cases hk : q.1 = k
    · right
      rw [← he, if_pos hk]
    · left
      rw [← he, if_neg hk]
      exact hq
  · rcases List.mem_append.mp h with h1 | h1
    · exact Or.inl h1
    · right
      simpa using h1

theorem buildKBAux_mem (files : List DiskFile) (kb : KB) (count : Nat) (kb2 : KB)
    (h : buildKBAux files kb count = Except.ok kb2) (p : String × String) (hp : p ∈ kb2) :
    p ∈ kb ∨ ∃ f, f ∈ files ∧ f.name = p.1 ∧ load_file_content f = Except.ok p.2 ∧ p.2 ≠ "" := by
  induction files generalizing kb count with
  | nil =>
    unfold buildKBAux at h
    cases h
    exact Or.inl hp
  | cons f fs ih =>
    unfold buildKBAux at h
    by_cases hg : allowed_file f.name = true ∧ count < MAX_FILES
    · rw [if_pos hg] at h
      cases hl : load_file_content f with
      | error e => rw [hl] at h; cases h
      | ok s =>
        rw [hl] at h
        dsimp only at h
        by_cases hc : s = ""
        · rw [if_pos hc] at h
          rcases ih _ _ h with h1 | ⟨g, hg1, hg2⟩
          · exact Or.inl h1
          · exact Or.inr ⟨g, List.mem_cons_of_mem f hg1, hg2⟩
        · rw [if_neg hc] at h
          rcases ih _ _ h with h1 | ⟨g, hg1, hg2⟩
          · rcases dictInsert_mem h1 with h2 | h2
            · exact Or.inl h2
            · right
              refine ⟨f, List.mem_cons_self f fs, ?_⟩
              rw [h2]
              exact ⟨rfl, by rw [hl], hc⟩
          · exact Or.inr ⟨g, List.mem_cons_of_mem f hg1, hg2⟩
    · rw [if_neg hg] at h
      rcases ih _ _ h with h1 | ⟨g, hg1, hg2⟩
      · exact Or.inl h1
      · exact Or.inr ⟨g, List.mem_cons_of_mem f hg1, hg2⟩

theorem buildKB_mem (files : List DiskFile) (p : String × String) (hp : p ∈ buildKB files) :
    ∃ f, f ∈ files ∧ f.name = p.1 ∧ load_file_content f = Except.ok p.2 ∧ p.2 ≠ "" := by
  rcases buildKBAux_mem files [] 0 _ (buildKB_eq files) p hp with h1 | h1
  · cases h1
  · exact h1

theorem buildKB_values_ne (files : List DiskFile) (p : String × String)
    (hp : p ∈ buildKB files) : p.2 ≠ "" := by
  obtain ⟨f, _, _, _, hne⟩ := buildKB_mem files p hp
  exact hne

/-- A sample plain-text file used by the concrete witnesses. -/
def demoTxt : DiskFile := ⟨"a.txt", Except.error "na", Except.error "na", Except.ok "hi", 2⟩

/-- A PDF that parses to zero pages, so its extraction yields empty text. -/
def emptyPdf : DiskFile := ⟨"bad.pdf", Except.ok [], Except.error "na", Except.error "na", 10⟩

/-! ## Claim theorems -/

/-- C1: immediately after any completed store operation — a successful
sync, an upload, a clear, or a read with its lazy resync — the in-memory
store holds at most MAX_RESOURCES (4) entries, provided it did before. -/
theorem store_bounded_after_ops (files disk : List DiskFile) (file : DiskFile)
    (kb : KB) (deleteFails : String → Bool) (hkb : kb.length ≤ MAX_FILES) :
    ((syncRun (Except.ok files) kb).2.length ≤ MAX_FILES) ∧
    ((upload_resource disk file kb).2.2.length ≤ MAX_FILES) ∧
    ((clear_resources disk deleteFails).2.length ≤ MAX_FILES) ∧
    ((get_resources disk kb).2.length ≤ MAX_FILES) := by
  refine ⟨?_, ?_, ?_, ?_⟩
  · unfold syncRun
    dsimp only
    rw [buildKB_eq files]
    exact buildKB_length files
  · unfold upload_resource
    by_cases h1 : file.name = ""
    · rw [if_pos h1]
      exact hkb
    · rw [if_neg h1]
      dsimp only
      by_cases h2 : MAX_FILES ≤ (buildKB disk).length
      · rw [if_pos h2]
        exact buildKB_length disk
      · rw [if_neg h2]
        by_cases h3 : allowed_file file.name = true
        · rw [if_pos h3]
          exact buildKB_length _
        · rw [if_neg h3]
          exact buildKB_length disk
  · simp [clear_resources]
  · unfold get_resources
    dsimp only
    by_cases h4 : kb.isEmpty
    · rw [if_pos h4]
      exact buildKB_length disk
    · rw [if_neg h4]
      exact hkb

theorem store_bounded_after_ops_witness :
    ((syncRun (Except.ok [demoTxt]) []).2.length ≤ MAX_FILES) ∧
    ((upload_resource [demoTxt] demoTxt []).2.2.length ≤ MAX_FILES) ∧
    ((clear_resources [demoTxt] (fun _ => false)).2.length ≤ MAX_FILES) ∧
    ((get_resources [demoTxt] []).2.length ≤ MAX_FILES) :=
  store_bounded_after_ops [demoTxt] [demoTxt] demoTxt [] (fun _ => false) (by decide)

/-- C10: every operation leaves the store mapping filenames to non-empty
texts: the sync loop records a file only when its extracted content is
non-empty, clearing empties the store, and upload and the lazy resync of
the listing route insert only through the sync loop. -/
theorem store_values_nonempty (files disk : List DiskFile) (file : DiskFile)
    (kb : KB) (deleteFails : String → Bool) (hkb : ∀ p ∈ kb, p.2 ≠ "") :
    (∀ p ∈ (syncRun (Except.ok files) kb).2, p.2 ≠ "") ∧
    (∀ p ∈ (upload_resource disk file kb).2.2, p.2 ≠ "") ∧
    (∀ p ∈ (clear_resources disk deleteFails).2, p.2 ≠ "") ∧
    (∀ p ∈ (get_resources disk kb).2, p.2 ≠ "") := by
  refine ⟨?_, ?_, ?_, ?_⟩
  · unfold syncRun
    dsimp only
    rw [buildKB_eq files]
    exact buildKB_values_ne files
  · unfold upload_resource
    by_cases h1 : file.name = ""
    · rw [if_pos h1]
      exact hkb
    · rw [if_neg h1]
      dsimp only
      by_cases h2 : MAX_FILES ≤ (buildKB disk).length
      · rw [if_pos h2]
        exact buildKB_values_ne disk
      · rw [if_neg h2]
        by_cases h3 : allowed_file file.name = true
        · rw [if_pos h3]
          exact buildKB_values_ne _
        · rw [if_neg h3]
          exact buildKB_values_ne disk
  · simp [clear_resources]
  · unfold get_resources
    dsimp only
    by_cases h4 : kb.isEmpty
    · rw [if_pos h4]
      exact buildKB_values_ne disk
    · rw [if_neg h4]
      exact hkb

theorem store_values_nonempty_witness :
    (∀ p ∈ (syncRun (Except.ok [demoTxt]) []).2, p.2 ≠ "") ∧
    (∀ p ∈ (upload_resource [demoTxt] demoTxt []).2.2, p.2 ≠ "") ∧
    (∀ p ∈ (clear_resources [demoTxt] (fun _ => false)).2, p.2 ≠ "") ∧
    (∀ p ∈ (get_resources [demoTxt] []).2, p.2 ≠ "") :=
  store_values_nonempty [demoTxt] [demoTxt] demoTxt [] (fun _ => false)
    (by intro p hp; cases hp)

/-- C8: `is_persian` returns true exactly when some character of the string
lies in the range U+0600 to U+06FF. -/
theorem is_persian_iff (s : String) :
    is_persian s = true ↔ ∃ c ∈ s.data, 0x600 ≤ c.toNat ∧ c.toNat ≤ 0x6FF := by
  unfold is_persian
  rw [List.any_eq_true]
  simp

/-- C2 counterexample: a PDF with an allowed extension whose extraction
yields empty text (`Except.ok ""`) is not recorded by the sync: the rebuilt
store is empty and holds no entry for the file, contradicting the claim
that it is recorded as an empty-text entry. -/
theorem empty_extraction_not_recorded :
    load_file_content emptyPdf = Except.ok "" ∧
    allowed_file emptyPdf.name = true ∧
    buildKB [emptyPdf] = [] ∧
    List.lookup "bad.pdf" (buildKB [emptyPdf]) = none :=
  ⟨rfl, rfl, rfl, rfl⟩

/-- C2 amended: a selected file whose extraction yields empty text is
skipped — the completed sync records no entry under its name (when
filenames are distinct) — while other valid files in the same sync are
still loaded. -/
theorem empty_extraction_skipped (files : List DiskFile) (f : DiskFile)
    (hnd : (files.map DiskFile.name).Nodup) (hf : f ∈ files)
    (hempty : load_file_content f = Except.ok "") :
    List.lookup f.name (buildKB files) = none ∧
    buildKB [emptyPdf, demoTxt] = [("a.txt", "hi")] := by
  refine ⟨?_, rfl⟩
  rw [List.lookup_eq_none_iff]
  intro p hp
  obtain ⟨g, hg, hname, hload, hne⟩ := buildKB_mem files p hp
  simp only [bne_iff_ne, ne_eq]
  intro hcon
  have hgf : g = f := by
    refine List.inj_on_of_nodup_map hnd hg hf ?_
    rw [hname, ← hcon]
  rw [hgf, hempty] at hload
  injection hload with h2
  exact hne h2.symm

theorem empty_extraction_skipped_witness :
    List.lookup emptyPdf.name (buildKB [emptyPdf, demoTxt]) = none ∧
    buildKB [emptyPdf, demoTxt] = [("a.txt", "hi")] :=
  empty_extraction_skipped [emptyPdf, demoTxt] emptyPdf (by decide)
    (List.mem_cons_self emptyPdf [demoTxt]) rfl

/-- C3 counterexample: a failing directory listing is not caught by the
sync — the raise propagates to the caller (the operation's outcome is the
error, not a normal return). -/
theorem sync_listing_error_not_caught :
    (syncRun (Except.error "boom") [("a.txt", "hi")]).1 = Except.error "boom" ∧
    (syncRun (Except.error "boom") [("a.txt", "hi")]).1 ≠ Except.ok () :=
  ⟨rfl, fun h => nomatch h⟩

/-- C3 amended: a directory-listing failure propagates out of the sync
uncaught, and because the clear at line 81 comes after the listing, the
prior mapping is then left intact; when the listing succeeds the operation
always completes (per-file failures are absorbed as empty text) and its
result is the fully rebuilt mapping. -/
theorem sync_error_propagation (e : String) (files : List DiskFile) (kb : KB) :
    syncRun (Except.error e) kb = (Except.error e, kb) ∧
    (syncRun (Except.ok files) kb).1 = Except.ok () ∧
    (syncRun (Except.ok files) kb).2 = buildKB files := by
  refine ⟨rfl, ?_, ?_⟩
  · unfold syncRun
    dsimp only
    rw [buildKB_eq files]
  · unfold syncRun
    dsimp only
    rw [buildKB_eq files]

/-- C7: with a declared format present (the filename has an extension),
extraction is total — it returns `Except.ok` for every file — and on any
internal failure of the underlying reader the returned text is "", so a
caller can only ever observe empty text, never a propagated raise. -/
theorem extraction_never_raises (f : DiskFile) (ext : String)
    (hext : extOf f.name = some ext) :
    (∃ s, load_file_content f = Except.ok s) ∧
    (strLower ext = "pdf" → ∀ e, f.asPdf = Except.error e →
      load_file_content f = Except.ok "") ∧
    (strLower ext = "epub" → ∀ e, f.asEpub = Except.error e →
      load_file_content f = Except.ok "") ∧
    (strLower ext ≠ "pdf" → strLower ext ≠ "epub" → ∀ e, f.asTxt = Except.error e →
      load_file_content f = Except.ok "") := by
  unfold load_file_content
  rw [hext]
  dsimp only
  refine ⟨?_, ?_, ?_, ?_⟩
  · by_cases h1 : strLower ext = "pdf"
    · rw [if_pos h1]
      exact ⟨_, rfl⟩
    · rw [if_neg h1]
      by_cases h2 : strLower ext = "epub"
      · rw [if_pos h2]
        exact ⟨_, rfl⟩
      · rw [if_neg h2]
        exact ⟨_, rfl⟩
  · intro h1 e he
    rw [if_pos h1]
    unfold extract_text_from_pdf
    rw [he]
  · intro h2 e he
    have h1 : ¬ strLower ext = "pdf" := by
      rw [h2]
      decide
    rw [if_neg h1, if_pos h2]
    unfold extract_text_from_epub
    rw [he]
  · intro h1 h2 e he
    rw [if_neg h1, if_neg h2, he]

theorem extraction_never_raises_witness :
    (∃ s, load_file_content ⟨"x.pdf", Except.error "corrupt", Except.error "na",
        Except.error "na", 0⟩ = Except.ok s) ∧
    (strLower "pdf" = "pdf" → ∀ e,
      DiskFile.asPdf ⟨"x.pdf", Except.error "corrupt", Except.error "na",
        Except.error "na", 0⟩ = Except.error e →
      load_file_content ⟨"x.pdf", Except.error "corrupt", Except.error "na",
        Except.error "na", 0⟩ = Except.ok "") ∧
    (strLower "pdf" = "epub" → ∀ e,
      DiskFile.asEpub ⟨"x.pdf", Except.error "corrupt", Except.error "na",
        Except.error "na", 0⟩ = Except.error e →
      load_file_content ⟨"x.pdf", Except.error "corrupt", Except.error "na",
        Except.error "na", 0⟩ = Except.ok "") ∧
    (strLower "pdf" ≠ "pdf" → strLower "pdf" ≠ "epub" → ∀ e,
      DiskFile.asTxt ⟨"x.pdf", Except.error "corrupt", Except.error "na",
        Except.error "na", 0⟩ = Except.error e →
      load_file_content ⟨"x.pdf", Except.error "corrupt", Except.error "na",
        Except.error "na", 0⟩ = Except.ok "") :=
  extraction_never_raises ⟨"x.pdf", Except.error "corrupt", Except.error "na",
    Except.error "na", 0⟩ "pdf" rfl

/-- C6: when the store is in sync with the directory and already holds at
least MAX_FILES entries, an upload is rejected with the capacity error and
both the directory and the in-memory mapping are left unchanged. -/
theorem upload_at_capacity_rejected (disk : List DiskFile) (kb : KB) (file : DiskFile)
    (hsync : kb = buildKB disk) (hfull : MAX_FILES ≤ kb.length) (hname : file.name ≠ "") :
    upload_resource disk file kb = (UploadResp.capacityError, disk, kb) := by
  unfold upload_resource
  rw [if_neg hname]
  dsimp only
  rw [← hsync, if_pos hfull]

/-- A directory whose sync fills the store to capacity. -/
def fullDisk : List DiskFile :=
  [⟨"a.txt", Except.error "na", Except.error "na", Except.ok "hi", 2⟩,
   ⟨"b.txt", Except.error "na", Except.error "na", Except.ok "x", 1⟩,
   ⟨"c.txt", Except.error "na", Except.error "na", Except.ok "y", 1⟩,
   ⟨"d.txt", Except.error "na", Except.error "na", Except.ok "z", 1⟩]

theorem upload_at_capacity_rejected_witness :
    upload_resource fullDisk ⟨"e.txt", Except.error "na", Except.error "na",
        Except.ok "w", 1⟩ (buildKB fullDisk) =
      (UploadResp.capacityError, fullDisk, buildKB fullDisk) :=
  upload_at_capacity_rejected fullDisk (buildKB fullDisk)
    ⟨"e.txt", Except.error "na", Except.error "na", Except.ok "w", 1⟩
    rfl (by decide) (by decide)

/-! ## Context assembly lemmas -/

theorem buildContext_acc (l : KB) (acc : String) :
    ∃ post, (l.foldl (fun a p => a ++ resourceBlock p.1 p.2) acc).data = acc.data ++ post := by
  induction l generalizing acc with
  | nil => exact ⟨[], by simp⟩
  | cons q l ih =>
    obtain ⟨post, hp⟩ := ih (acc ++ resourceBlock q.1 q.2)
    refine ⟨(resourceBlock q.1 q.2).data ++ post, ?_⟩
    simp only [List.foldl_cons]
    rw [hp]
    simp

theorem buildContext_mem_aux (kb : KB) (p : String × String) (hp : p ∈ kb) :
    ∀ acc : String, ∃ pre post,
      (kb.foldl (fun a q => a ++ resourceBlock q.1 q.2) acc).data =
        pre ++ (resourceBlock p.1 p.2).data ++ post := by
  induction kb with
  | nil => cases hp
  | cons q l ih =>
    intro acc
    rcases List.mem_cons.mp hp with h1 | h1
    · obtain ⟨post, hpost⟩ := buildContext_acc l (acc ++ resourceBlock q.1 q.2)
      refine ⟨acc.data, post, ?_⟩
      simp only [List.foldl_cons]
      rw [hpost, h1]
      simp
    · obtain ⟨pre, post, hpp⟩ := ih h1 (acc ++ resourceBlock q.1 q.2)
      exact ⟨pre, post, by simp only [List.foldl_cons]; exact hpp⟩

/-- C5: the assembled context contains, for each resource of the snapshot,
a `RESOURCE: <filename>` labeled block followed by the resource's text cut
to at most 40000 characters; in particular for the store
[("a.txt", "hello")] the context is the single block labeled
`RESOURCE: a.txt` with text "hello". -/
theorem context_assembly (kb : KB) (p : String × String) (hp : p ∈ kb) :
    (∃ pre post, (buildContext kb).data =
      pre ++ (resourceBlock p.1 p.2).data ++ post) ∧
    resourceBlock p.1 p.2 =
      "\n--- RESOURCE: " ++ p.1 ++ " ---\n" ++ strTake p.2 PER_RESOURCE_LIMIT ++ "...\n" ∧
    (strTake p.2 PER_RESOURCE_LIMIT).length ≤ PER_RESOURCE_LIMIT ∧
    buildContext [("a.txt", "hello")] = "\n--- RESOURCE: a.txt ---\nhello...\n" := by
  refine ⟨buildContext_mem_aux kb p hp "", rfl, ?_, rfl⟩
  unfold strTake
  simp only [String.length_mk, List.length_take]
  exact min_le_left _ _

theorem context_assembly_witness :
    (∃ pre post, (buildContext [("a.txt", "hello")]).data =
      pre ++ (resourceBlock "a.txt" "hello").data ++ post) ∧
    resourceBlock "a.txt" "hello" =
      "\n--- RESOURCE: " ++ "a.txt" ++ " ---\n" ++ strTake "hello" PER_RESOURCE_LIMIT ++ "...\n" ∧
    (strTake "hello" PER_RESOURCE_LIMIT).length ≤ PER_RESOURCE_LIMIT ∧
    buildContext [("a.txt", "hello")] = "\n--- RESOURCE: a.txt ---\nhello...\n" :=
  context_assembly [("a.txt", "hello")] ("a.txt", "hello") (List.mem_singleton.mpr rfl)

/-! ## Phase 3 fallback lemmas -/

theorem phase3_of_tool_error (gw : String → Bool → Except String String)
    (instr : String) (e : String) (hfail : gw instr true = Except.error e) :
    phase3 gw instr = (gw instr false, [⟨instr, true⟩, ⟨instr, false⟩]) := by
  unfold phase3
  rw [hfail]
  cases hgw : gw instr false <;> rfl

theorem generate_prompt_nonpersian (gw : String → Bool → Except String String)
    (kb : KB) (prompt : String) (hper : is_persian prompt = false) :
    generate_prompt gw kb prompt =
      match (phase3 gw (systemInstruction (buildContext kb) prompt)).1 with
      | Except.error e => Except.error e
      | Except.ok final => Except.ok ⟨final,
          if buildContext kb = "" then []
          else ["Utilized " ++ toString kb.length ++ " internal resources."]⟩ := by
  unfold generate_prompt
  rw [hper]
  simp only [Bool.false_eq_true, if_false]
  cases hp3 : (phase3 gw (systemInstruction (buildContext kb) prompt)).1 with
  | error e => rfl
  | ok final => rfl

/-- C4: when the tool-augmented Phase 3 call fails, exactly one further
call is issued, with the same instruction block and tools disabled; a
fallback success yields the pipeline's success outcome carrying the
generated text, and a fallback failure is surfaced to the caller as the
pipeline failure with no further retry. -/
theorem phase3_fallback (gw : String → Bool → Except String String) (instr : String)
    (e : String) (hfail : gw instr true = Except.error e) :
    (phase3 gw instr).2 = [⟨instr, true⟩, ⟨instr, false⟩] ∧
    (∀ t, gw instr false = Except.ok t → (phase3 gw instr).1 = Except.ok t) ∧
    (∀ e2, gw instr false = Except.error e2 → (phase3 gw instr).1 = Except.error e2) ∧
    (∀ kb prompt, is_persian prompt = false →
      instr = systemInstruction (buildContext kb) prompt →
      (∀ t, gw instr false = Except.ok t →
        ∃ m, generate_prompt gw kb prompt = Except.ok ⟨t, m⟩) ∧
      (∀ e2, gw instr false = Except.error e2 →
        generate_prompt gw kb prompt = Except.error e2)) := by
  have hp3 := phase3_of_tool_error gw instr e hfail
  refine ⟨by rw [hp3], ?_, ?_, ?_⟩
  · intro t ht
    rw [hp3]
    exact ht
  · intro e2 he2
    rw [hp3]
    exact he2
  · intro kb prompt hper hinstr
    have hgen := generate_prompt_nonpersian gw kb prompt hper
    constructor
    · intro t ht
      refine ⟨if buildContext kb = "" then []
        else ["Utilized " ++ toString (List.length kb) ++ " internal resources."], ?_⟩
      rw [hgen, ← hinstr, hp3]
      dsimp only
      rw [ht]
    · intro e2 he2
      rw [hgen, ← hinstr, hp3]
      dsimp only
      rw [he2]

/-- A gateway whose tool-augmented calls always raise and whose plain calls
always succeed. -/
def demoGw : String → Bool → Except String String :=
  fun _ tools => if tools then Except.error "tool failure" else Except.ok "generated"

theorem phase3_fallback_witness :
    ((phase3 demoGw (systemInstruction (buildContext []) "hi")).2 =
      [⟨systemInstruction (buildContext []) "hi", true⟩,
       ⟨systemInstruction (buildContext []) "hi", false⟩]) ∧
    (∀ t, demoGw (systemInstruction (buildContext []) "hi") false = Except.ok t →
      (phase3 demoGw (systemInstruction (buildContext []) "hi")).1 = Except.ok t) ∧
    (∀ e2, demoGw (systemInstruction (buildContext []) "hi") false = Except.error e2 →
      (phase3 demoGw (systemInstruction (buildContext []) "hi")).1 = Except.error e2) ∧
    (∀ kb prompt, is_persian prompt = false →
      systemInstruction (buildContext []) "hi" = systemInstruction (buildContext kb) prompt →
      (∀ t, demoGw (systemInstruction (buildContext []) "hi") false = Except.ok t →
        ∃ m, generate_prompt demoGw kb prompt = Except.ok ⟨t, m⟩) ∧
      (∀ e2, demoGw (systemInstruction (buildContext []) "hi") false = Except.error e2 →
        generate_prompt demoGw kb prompt = Except.error e2)) :=
  phase3_fallback demoGw (systemInstruction (buildContext []) "hi") "tool failure" rfl

/-! ## Round-trip lemmas -/

theorem dictInsert_keys {kb : KB} {k v a : String}
    (h : a ∈ (dictInsert kb k v).map Prod.fst) : a ∈ kb.map Prod.fst ∨ a = k := by
  obtain ⟨p, hp, hpa⟩ := List.mem_map.mp h
  rcases dictInsert_mem hp with h1 | h1
  · exact Or.inl (List.mem_map.mpr ⟨p, h1, hpa⟩)
  · right
    rw [← hpa, h1]

theorem lookup_none_of_fresh {kb : KB} {k : String} (h : k ∉ kb.map Prod.fst) :
    List.lookup k kb = none := by
  rw [List.lookup_eq_none_iff]
  intro p hp
  simp only [bne_iff_ne, ne_eq]
  intro hc
  exact h (List.mem_map.mpr ⟨p, hp, hc.symm⟩)

theorem lookup_append_fresh {kb : KB} {k v : String} (h : k ∉ kb.map Prod.fst) :
    List.lookup k (kb ++ [(k, v)]) = some v := by
  rw [List.lookup_append, lookup_none_of_fresh h]
  simp

theorem dictInsert_fresh {kb : KB} {k v : String} (h : k ∉ kb.map Prod.fst) :
    dictInsert kb k v = kb ++ [(k, v)] := by
  unfold dictInsert
  rw [if_neg]
  simp only [List.any_eq_true, beq_iff_eq, not_exists, not_and]
  intro p hp hc
  exact h (List.mem_map.mpr ⟨p, hp, hc⟩)

theorem buildKBAux_last_loaded (f : DiskFile) (s : String)
    (hall : allowed_file f.name = true)
    (hload : load_file_content f = Except.ok s) (hs : s ≠ "") :
    ∀ (disk : List DiskFile) (kb : KB) (count : Nat) (kb2 : KB),
      f.name ∉ kb.map Prod.fst →
      f.name ∉ disk.map DiskFile.name →
      count + (disk.filter (fun g => allowed_file g.name)).length < MAX_FILES →
      buildKBAux (disk ++ [f]) kb count = Except.ok kb2 →
      List.lookup f.name kb2 = some s := by
  intro disk
  induction disk with
  | nil =>
    intro kb count kb2 hfkb _ hroom h
    rw [List.nil_append] at h
    unfold buildKBAux at h
    have hc : count < MAX_FILES := by simpa using hroom
    rw [if_pos ⟨hall, hc⟩, hload] at h
    dsimp only at h
    rw [if_neg hs] at h
    unfold buildKBAux at h
    cases h
    rw [dictInsert_fresh hfkb]
    exact lookup_append_fresh hfkb
  | cons g disk ih =>
    intro kb count kb2 hfkb hfdisk hroom h
    have hgname : g.name ≠ f.name := by
      intro hc
      exact hfdisk (by rw [← hc]; exact List.mem_map.mpr ⟨g, List.mem_cons_self g disk, rfl⟩)
    have hfdisk2 : f.name ∉ disk.map DiskFile.name := by
      intro hm
      exact hfdisk (by simp only [List.map_cons, List.mem_cons]; exact Or.inr hm)
    rw [List.cons_append] at h
    unfold buildKBAux at h
    by_cases hg : allowed_file g.name = true ∧ count < MAX_FILES
    · have hfilter : ((g :: disk).filter (fun x => allowed_file x.name)).length
          = (disk.filter (fun x => allowed_file x.name)).length + 1 := by
        rw [List.filter_cons, if_pos (by simpa using hg.1)]
        rfl
      rw [if_pos hg] at h
      cases hl : load_file_content g with
      | error e2 =>
        rw [hl] at h
        cases h
      | ok c =>
        rw [hl] at h
        dsimp only at h
        by_cases hc : c = ""
        · rw [if_pos hc] at h
          exact ih kb count kb2 hfkb hfdisk2 (by omega) h
        · rw [if_neg hc] at h
          refine ih _ _ kb2 ?_ hfdisk2 (by omega) h
          intro hm
          rcases dictInsert_keys hm with h1 | h1
          · exact hfkb h1
          · exact hgname h1.symm
    · rw [if_neg hg] at h
      by_cases hga : allowed_file g.name = true
      · exfalso
        have hcnt : count < MAX_FILES := Nat.lt_of_le_of_lt (Nat.le_add_right _ _) hroom
        exact hg ⟨hga, hcnt⟩
      · have hfilter : ((g :: disk).filter (fun x => allowed_file x.name))
            = disk.filter (fun x => allowed_file x.name) := by
          rw [List.filter_cons, if_neg (by simpa using hga)]
        rw [hfilter] at hroom
        exact ih kb count kb2 hfkb hfdisk2 hroom h

theorem buildKBAux_length_le_allowed :
    ∀ (files : List DiskFile) (kb : KB) (count : Nat) (kb2 : KB),
      buildKBAux files kb count = Except.ok kb2 →
      kb2.length ≤ kb.length + (files.filter (fun g => allowed_file g.name)).length := by
  intro files
  induction files with
  | nil =>
    intro kb count kb2 h
    unfold buildKBAux at h
    cases h
    simp
  | cons f fs ih =>
    intro kb count kb2 h
    unfold buildKBAux at h
    by_cases hg : allowed_file f.name = true ∧ count < MAX_FILES
    · have hfilter : ((f :: fs).filter (fun g => allowed_file g.name)).length
          = (fs.filter (fun g => allowed_file g.name)).length + 1 := by
        rw [List.filter_cons, if_pos (by simpa using hg.1)]
        rfl
      rw [if_pos hg] at h
      cases hl : load_file_content f with
      | error e =>
        rw [hl] at h
        cases h
      | ok c =>
        rw [hl] at h
        dsimp only at h
        by_cases hc : c = ""
        · rw [if_pos hc] at h
          have h1 := ih _ _ _ h
          omega
        · rw [if_neg hc] at h
          have h1 := ih _ _ _ h
          have h2 := dictInsert_length_le kb f.name c
          omega
    · rw [if_neg hg] at h
      by_cases hga : allowed_file f.name = true
      · have hfilter : ((f :: fs).filter (fun g => allowed_file g.name)).length
            = (fs.filter (fun g => allowed_file g.name)).length + 1 := by
          rw [List.filter_cons, if_pos (by simpa using hga)]
          rfl
        have h1 := ih _ _ _ h
        omega
      · have hfilter : ((f :: fs).filter (fun g => allowed_file g.name))
            = fs.filter (fun g => allowed_file g.name) := by
          rw [List.filter_cons, if_neg (by simpa using hga)]
        rw [hfilter]
        exact ih _ _ _ h

theorem lookup_map_length (kb : KB) (k : String) :
    List.lookup k (kb.map (fun p => (p.1, p.2.length))) =
      Option.map String.length (List.lookup k kb) := by
  induction kb with
  | nil => rfl
  | cons p l ih =>
    cases p with
    | mk a b =>
      simp only [List.map_cons]
      rw [List.lookup_cons, List.lookup_cons]
      cases hk : k == a
      · exact ih
      · rfl

theorem utf8Size_one_of_ascii {c : Char} (h : c.toNat ≤ 127) : c.utf8Size = 1 := by
  unfold Char.utf8Size
  rw [if_pos]
  rw [UInt32.le_def, BitVec.le_def]
  exact h

theorem go_ascii : ∀ data : List Char, (∀ c ∈ data, c.toNat ≤ 127) →
    String.utf8ByteSize.go data = data.length
  | [], _ => rfl
  | c :: cs, h => by
    show String.utf8ByteSize.go cs + c.utf8Size = cs.length + 1
    rw [utf8Size_one_of_ascii (h c (List.mem_cons_self c cs)),
        go_ascii cs (fun d hd => h d (List.mem_cons_of_mem c hd))]

theorem utf8ByteSize_eq_length_of_ascii (s : String)
    (h : ∀ c ∈ s.data, c.toNat ≤ 127) : s.utf8ByteSize = s.length := by
  cases s with
  | mk data => exact go_ascii data h

/-- C9 counterexample input: an empty plain-text file; its content is
vacuously all-ASCII and its byte length is 0. -/
def emptyTxt : DiskFile := ⟨"e.txt", Except.error "na", Except.error "na", Except.ok "", 0⟩

/-- C9 counterexample: the empty ASCII plain-text file is accepted by the
upload, yet the resync skips it (empty extracted text), so the subsequent
listing holds no entry for it at all — contradicting the claim that every
ASCII plain-text file appears in the listing with its byte length. -/
theorem ascii_roundtrip_cex :
    (upload_resource [] emptyTxt []).1 = UploadResp.success "e.txt" 0 ∧
    List.lookup "e.txt"
      ((get_resources (upload_resource [] emptyTxt []).2.1
        (upload_resource [] emptyTxt []).2.2).1) = none :=
  ⟨rfl, rfl⟩

/-- C9 amended: a plain-text file with non-empty all-ASCII content, when
its upload is accepted (store below capacity, fresh name), appears in the
subsequent listing with a reported size equal to its byte length. -/
theorem ascii_roundtrip (disk : List DiskFile) (kb : KB) (f : DiskFile) (s : String)
    (hext : extOf f.name = some "txt")
    (htxt : f.asTxt = Except.ok s) (hs : s ≠ "")
    (hascii : ∀ c ∈ s.data, c.toNat ≤ 127)
    (hbyte : f.byteLen = s.utf8ByteSize)
    (hfresh : f.name ∉ disk.map DiskFile.name)
    (hroom : (disk.filter (fun g => allowed_file g.name)).length < MAX_FILES)
    (hname : f.name ≠ "") :
    upload_resource disk f kb =
      (UploadResp.success f.name (buildKB (disk ++ [f])).length, disk ++ [f],
        buildKB (disk ++ [f])) ∧
    List.lookup f.name ((get_resources (disk ++ [f]) (buildKB (disk ++ [f]))).1) =
      some f.byteLen := by
  have hall : allowed_file f.name = true := by
    unfold allowed_file
    rw [hext]
    rfl
  have hload : load_file_content f = Except.ok s := by
    unfold load_file_content
    rw [hext]
    dsimp only
    rw [if_neg (by decide), if_neg (by decide), htxt]
  have hcap : (buildKB disk).length < MAX_FILES := by
    have h1 := buildKBAux_length_le_allowed disk [] 0 _ (buildKB_eq disk)
    simp only [List.length_nil, Nat.zero_add] at h1
    exact Nat.lt_of_le_of_lt h1 hroom
  have hsave : saveFile disk f = disk ++ [f] := by
    unfold saveFile
    rw [if_neg]
    simp only [List.any_eq_true, beq_iff_eq, not_exists, not_and]
    intro g hg hc
    exact hfresh (List.mem_map.mpr ⟨g, hg, hc⟩)
  have hlook : List.lookup f.name (buildKB (disk ++ [f])) = some s :=
    buildKBAux_last_loaded f s hall hload hs disk [] 0 _ (by simp) hfresh
      (by simpa using hroom) (buildKB_eq (disk ++ [f]))
  constructor
  · unfold upload_resource
    rw [if_neg hname]
    dsimp only
    rw [if_neg (by omega), if_pos hall, hsave]
  · unfold get_resources
    dsimp only
    rw [ite_self, lookup_map_length, hlook]
    dsimp only [Option.map]
    rw [hbyte, utf8ByteSize_eq_length_of_ascii s hascii]

theorem ascii_roundtrip_witness :
    (upload_resource [] demoTxt [] =
      (UploadResp.success demoTxt.name (buildKB ([] ++ [demoTxt])).length, [] ++ [demoTxt],
        buildKB ([] ++ [demoTxt])) ∧
     List.lookup demoTxt.name
       ((get_resources ([] ++ [demoTxt]) (buildKB ([] ++ [demoTxt]))).1) =
       some demoTxt.byteLen) :=
  ascii_roundtrip [] [] demoTxt "hi" rfl rfl (by decide) (by decide) (by decide)
    (by simp) (by decide) (by decide)

end PromptGen
